import Mathlib

set_option linter.unusedVariables false

/- Shallow embedding of the aucc keyboard-lighting tool
   (aucc/main.py and aucc/core/handler.py).

   Style tokens are embedded as `List Char`; Python dictionaries keyed by
   strings or characters become association lists read with `List.lookup`,
   so a subscript that can raise `KeyError` in Python is a `none` result
   here.  Command frames (Python 8-tuples of ints) are `List Nat`. -/

/-- brightness_map from main.py: brightness ordinal (1..4) to the
brightness byte of the command frame. -/
def brightness_map : List (Nat × Nat) := [(1, 0x08), (2, 0x16), (3, 0x24), (4, 0x32)]

/-- programs dict from main.py, in insertion order.  The order matters: it
fixes the order of the alternatives in the style regular expression
light_style_pattern, which Python's re engine tries left to right. -/
def programs : List (List Char × Nat) := [
  (['b','r','e','a','t','h','i','n','g'], 0x02),
  (['w','a','v','e'], 0x03),
  (['r','a','n','d','o','m'], 0x04),
  (['r','e','a','c','t','i','v','e'], 0x04),
  (['r','a','i','n','b','o','w'], 0x05),
  (['r','i','p','p','l','e'], 0x06),
  (['r','e','a','c','t','i','v','e','r','i','p','p','l','e'], 0x07),
  (['m','a','r','q','u','e','e'], 0x09),
  (['f','i','r','e','w','o','r','k','s'], 0x11),
  (['r','a','i','n','d','r','o','p'], 0x0A),
  (['a','u','r','o','r','a'], 0x0E),
  (['r','e','a','c','t','i','v','e','a','u','r','o','r','a'], 0x0E)]

/-- colours dict from main.py: the 7 accepted colour letters to colour
bytes. -/
def colours : List (Char × Nat) :=
  [('r', 0x01), ('o', 0x02), ('y', 0x03), ('g', 0x04), ('b', 0x05), ('t', 0x06), ('p', 0x07)]

/-- The program names, in the order they appear in the alternation of
light_style_pattern. -/
def programKeys : List (List Char) := programs.map Prod.fst

/-- Matching of light_style_pattern = "^(<programs>)(<letters>)?$" with
Python's backtracking semantics: program alternatives are tried left to
right; after a program alternative consumes a prefix, the optional colour
group can consume one accepted letter; the end anchor then requires the
whole token to be consumed, otherwise the engine backtracks to the next
program alternative. -/
def matchFirst : List (List Char) → List Char → Option (List Char × Option Char)
  | [], _ => none
  | q :: qs, s =>
    if s.take q.length = q then
      match s.drop q.length with
      | [] => some (q, none)
      | [c] => if (colours.lookup c).isSome then some (q, some c) else matchFirst qs s
      | _ => matchFirst qs s
    else matchFirst qs s

/-- re.match(light_style_pattern, style) followed by .groups(), from
get_light_style_code in main.py. -/
def matchStyle (s : List Char) : Option (List Char × Option Char) := matchFirst programKeys s

/-- The failures get_light_style_code can raise: the explicit "Style not
found" exception, the KeyError of the brightness_map subscript (the
InvalidBrightness of the spec), and the KeyError of the programs/colours
subscripts (unreachable for a matched token). -/
inductive StyleError where
  | unknownStyle (style : List Char)
  | invalidBrightness (level : Nat)
  | keyErr
  deriving DecidableEq

/-- get_code from main.py: the fixed-format 8-byte command frame. -/
def get_code (program sp brightness colour program2 save_changes : Nat) : List Nat :=
  [0x08, 0x02, program, sp, brightness, colour, program2, save_changes]

/-- get_light_style_code from main.py: parse the style token, look up the
program code, resolve the colour letter (default 0x08, rainbow), map the
brightness ordinal, apply the per-program overrides, and build the frame.
The pair cp is (colour_code, program2) after the override chain. -/
def get_light_style_code (style : List Char) (brightness : Nat) (sp : Nat) :
    Except StyleError (List Nat) :=
  match matchStyle style with
  | none => .error (.unknownStyle style)
  | some (program, letter) =>
    match programs.lookup program with
    | none => .error .keyErr
    | some program_code =>
      match (match letter with | some c => colours.lookup c | none => some 0x08) with
      | none => .error .keyErr
      | some colour_base =>
        match brightness_map.lookup brightness with
        | none => .error (.invalidBrightness brightness)
        | some brightness_code =>
          let cp : Nat × Nat :=
            if program = ['r','a','i','n','b','o','w'] then (0x00, 0x00)
            else if program = ['m','a','r','q','u','e','e'] then (0x08, 0x00)
            else if program = ['w','a','v','e'] then (0x00, 0x01)
            else if program ∈ [['r','e','a','c','t','i','v','e'],
                               ['r','e','a','c','t','i','v','e','a','u','r','o','r','a'],
                               ['f','i','r','e','w','o','r','k','s']]
                 then (colour_base, 0x01)
            else (colour_base, 0x00)
          .ok (get_code program_code sp brightness_code cp.1 cp.2 0x00)

example : get_light_style_code ['r','i','p','p','l','e','r'] 3 5 =
    .ok [0x08, 0x02, 0x06, 0x05, 0x24, 0x01, 0x00, 0x00] := rfl

example : get_light_style_code ['r','e','a','c','t','i','v','e','r','i','p','p','l','e'] 3 5 =
    .ok [0x08, 0x02, 0x07, 0x05, 0x24, 0x08, 0x00, 0x00] := rfl

example : matchStyle ['r','e','a','c','t','i','v','e','r'] =
    some (['r','e','a','c','t','i','v','e'], some 'r') := rfl

example : get_light_style_code ['r','i','p','p','l','e','z'] 3 5 =
    .error (.unknownStyle ['r','i','p','p','l','e','z']) := rfl

example : get_light_style_code ['r','i','p','p','l','e'] 0 5 =
    .error (.invalidBrightness 0) := rfl

example : get_light_style_code ['m','a','r','q','u','e','e'] 3 5 =
    .ok [0x08, 0x02, 0x09, 0x05, 0x24, 0x08, 0x00, 0x00] := rfl

example : get_light_style_code ['w','a','v','e','r'] 3 5 =
    .ok [0x08, 0x02, 0x03, 0x05, 0x24, 0x00, 0x01, 0x00] := rfl

example : get_light_style_code ['r','i','p','p','l','e'] 3 0 =
    .ok [0x08, 0x02, 0x06, 0x00, 0x24, 0x08, 0x00, 0x00] := rfl

/- Orchestrator (class ControlCenter in main.py) and the device handle
   (aucc/core/handler.py).  A DeviceHandler write is recorded as an event:
   ctrl_write issues one control transfer with the 8-byte payload, and
   bulk_write with times=n issues n sequential bulk transfers of the same
   payload, recorded as n bulk events. -/

/-- One USB transfer issued through DeviceHandler: a control transfer
(ctrl_write) or one bulk transfer (one iteration of bulk_write). -/
inductive Event where
  | ctrl (frame : List Nat)
  | bulk (payload : List Nat)
  deriving DecidableEq

/-- The mutable state of a ControlCenter instance: self.brightness,
initialised to None in __init__. -/
structure CCState where
  brightness : Option Nat
  deriving DecidableEq

/-- Result of one orchestrator operation: the state after the call, the
transfers issued (in order), and ok = false when a KeyError escaped (the
transfers issued before the exception are still recorded). -/
structure OpResult where
  st : CCState
  events : List Event
  ok : Bool
  deriving DecidableEq

/-- Python truthiness of the optional int fields involved (None and 0 are
falsy, every other int truthy). -/
def truthy : Option Nat → Bool
  | none => false
  | some n => n != 0

/-- ControlCenter.disable_keyboard: one control write of the power-off
frame. -/
def disable_keyboard (st : CCState) : OpResult :=
  ⟨st, [Event.ctrl [0x08, 0x01, 0x00, 0x00, 0x00, 0x00, 0x00, 0x00]], true⟩

/-- ControlCenter.color_scheme_setup: one control write of the
persist-changes frame (save_changes defaults to 0x01 at every call site). -/
def color_scheme_setup (st : CCState) (save_changes : Nat) : OpResult :=
  ⟨st, [Event.ctrl [0x12, 0x00, 0x00, 0x08, save_changes, 0x00, 0x00, 0x00]], true⟩

/-- ControlCenter.keyboard_style: control write of the resolved style
frame; a get_light_style_code failure propagates before any write. -/
def keyboard_style (st : CCState) (style : List Char) (brightness sp : Nat) : OpResult :=
  match get_light_style_code style brightness sp with
  | .ok frame => ⟨st, [Event.ctrl frame], true⟩
  | .error _ => ⟨st, [], false⟩

/-- ControlCenter.adjust_brightness: a truthy level is stored in
self.brightness and written out as the dedicated brightness frame (the
brightness_map subscript can raise KeyError after the store, before the
write); a falsy level (None or 0) recurses with the default level 4. -/
def adjust_brightness (st : CCState) (brightness : Option Nat) : OpResult :=
  if h : truthy brightness = true then
    let b := brightness.getD 0
    match brightness_map.lookup b with
    | some code =>
      ⟨⟨some b⟩, [Event.ctrl [0x08, 0x02, 0x33, 0x00, code, 0x00, 0x00, 0x00]], true⟩
    | none => ⟨⟨some b⟩, [], false⟩
  else
    adjust_brightness st (some 4)
termination_by (if truthy brightness then 0 else 1)
decreasing_by simp_all [truthy]

/-- adjust_brightness with no argument always applies the default level 4. -/
theorem adjust_brightness_none (st : CCState) :
    adjust_brightness st none =
      ⟨⟨some 4⟩, [Event.ctrl [0x08, 0x02, 0x33, 0x00, 0x32, 0x00, 0x00, 0x00]], true⟩ := by
  rw [adjust_brightness]
  simp [truthy]
  rw [adjust_brightness]
  simp [truthy, brightness_map, List.lookup]

/-- ControlCenter.mono_color_setup: with self.brightness truthy, write the
persist frame then bulk-write the mono colour vector 8 times; otherwise
first self-apply the default brightness, then retry.  The colour-vector
collaborator get_mono_color_vector (aucc.core.colors, outside this core)
is an abstract parameter fm. -/
def mono_color_setup (fm : List Char → List Nat) (st : CCState) (scheme : List Char) :
    OpResult :=
  if h : truthy st.brightness = true then
    ⟨st, Event.ctrl [0x12, 0x00, 0x00, 0x08, 0x01, 0x00, 0x00, 0x00] ::
         List.replicate 8 (Event.bulk (fm scheme)), true⟩
  else
    let r := adjust_brightness st none
    if r.ok then
      let r2 := mono_color_setup fm r.st scheme
      ⟨r2.st, r.events ++ r2.events, r2.ok⟩
    else ⟨r.st, r.events, false⟩
termination_by (if truthy st.brightness then 0 else 1)
decreasing_by simp_all [adjust_brightness_none, truthy]

/-- ControlCenter.h_alt_color_setup, same shape as mono_color_setup with
collaborator get_h_alt_color_vector as abstract parameter fh. -/
def h_alt_color_setup (fh : List Char → List Char → List Nat) (st : CCState)
    (scheme_a scheme_b : List Char) : OpResult :=
  if h : truthy st.brightness = true then
    ⟨st, Event.ctrl [0x12, 0x00, 0x00, 0x08, 0x01, 0x00, 0x00, 0x00] ::
         List.replicate 8 (Event.bulk (fh scheme_a scheme_b)), true⟩
  else
    let r := adjust_brightness st none
    if r.ok then
      let r2 := h_alt_color_setup fh r.st scheme_a scheme_b
      ⟨r2.st, r.events ++ r2.events, r2.ok⟩
    else ⟨r.st, r.events, false⟩
termination_by (if truthy st.brightness then 0 else 1)
decreasing_by simp_all [adjust_brightness_none, truthy]

/-- ControlCenter.v_alt_color_setup, same shape as mono_color_setup with
collaborator get_v_alt_color_vector as abstract parameter fv. -/
def v_alt_color_setup (fv : List Char → List Char → List Nat) (st : CCState)
    (scheme_a scheme_b : List Char) : OpResult :=
  if h : truthy st.brightness = true then
    ⟨st, Event.ctrl [0x12, 0x00, 0x00, 0x08, 0x01, 0x00, 0x00, 0x00] ::
         List.replicate 8 (Event.bulk (fv scheme_a scheme_b)), true⟩
  else
    let r := adjust_brightness st none
    if r.ok then
      let r2 := v_alt_color_setup fv r.st scheme_a scheme_b
      ⟨r2.st, r.events ++ r2.events, r2.ok⟩
    else ⟨r.st, r.events, false⟩
termination_by (if truthy st.brightness then 0 else 1)
decreasing_by simp_all [adjust_brightness_none, truthy]

/-- One high-level orchestrator operation, as invocable from main(). -/
inductive Op where
  | disable
  | style (s : List Char) (brightness sp : Nat)
  | setBrightness (level : Option Nat)
  | mono (scheme : List Char)
  | hAlt (a b : List Char)
  | vAlt (a b : List Char)

/-- Dispatch one operation on the orchestrator state. -/
def runOp (fm : List Char → List Nat) (fh fv : List Char → List Char → List Nat)
    (st : CCState) : Op → OpResult
  | .disable => disable_keyboard st
  | .style s b sp => keyboard_style st s b sp
  | .setBrightness l => adjust_brightness st l
  | .mono scheme => mono_color_setup fm st scheme
  | .hAlt a b => h_alt_color_setup fh st a b
  | .vAlt a b => v_alt_color_setup fv st a b

/-- A run of orchestrator operations from a state: the trace of issued
transfers, stopping at the first operation that raises (as the escaping
Python exception aborts the process). -/
def run (fm : List Char → List Nat) (fh fv : List Char → List Char → List Nat) :
    CCState → List Op → CCState × List Event
  | st, [] => (st, [])
  | st, op :: ops =>
    let r := runOp fm fh fv st op
    if r.ok then
      let rest := run fm fh fv r.st ops
      (rest.1, r.events ++ rest.2)
    else (r.st, r.events)

/-- Whether an event is the dedicated brightness-set control write
(frame prefix 0x08, 0x02, 0x33). -/
def isBrightCtrl : Event → Bool
  | .ctrl f => f.take 3 == [0x08, 0x02, 0x33]
  | .bulk _ => false

/-- Every bulk write in the trace is preceded by a brightness control
write; seen records whether one was already issued. -/
def safeTrace : Bool → List Event → Bool
  | _, [] => true
  | seen, Event.bulk p :: rest => seen && safeTrace seen rest
  | seen, Event.ctrl f :: rest => safeTrace (seen || isBrightCtrl (Event.ctrl f)) rest

/-- The seen flag after scanning a trace. -/
def seenAfter : Bool → List Event → Bool
  | seen, [] => seen
  | seen, e :: rest => seenAfter (seen || isBrightCtrl e) rest

/- Device selection and CLI argument ranges from main(). -/

/-- The device-selection usage errors printed by main() before exiting
non-zero. -/
inductive SelectError where
  | outOfRange
  | noDevice
  | multipleDevices
  deriving DecidableEq

/-- Device selection in main(): with a truthy --device argument, a 1-based
index into the device list (out of range is a usage error); with no truthy
argument, the single found device (none or several is a usage error).
Returns the 0-based index of the selected device. -/
def select_device (parsedDevice : Option Int) (numDevices : Nat) : Except SelectError Nat :=
  if (match parsedDevice with | none => false | some d => d != 0) then
    let d := parsedDevice.getD 0
    if d < 1 ∨ (numDevices : Int) ≤ d - 1 then .error .outOfRange
    else .ok (d - 1).toNat
  else
    if numDevices = 0 then .error .noDevice
    else if 1 < numDevices then .error .multipleDevices
    else .ok 0

/-- The accepted values of the --speed CLI argument: choices=range(1, 11)
in main(). -/
def speedChoices : List Int := [1, 2, 3, 4, 5, 6, 7, 8, 9, 10]

/-- argparse validation of the --speed argument against its choices. -/
def parse_speed_arg (sp : Int) : Option Int :=
  if sp ∈ speedChoices then some sp else none

example : adjust_brightness ⟨none⟩ (some 0) =
    ⟨⟨some 4⟩, [Event.ctrl [0x08, 0x02, 0x33, 0x00, 0x32, 0x00, 0x00, 0x00]], true⟩ := by
  rw [adjust_brightness]; simp [truthy]; rw [adjust_brightness]; simp [truthy, brightness_map, List.lookup]

example : select_device (some 0) 1 = .ok 0 := rfl

example : select_device (some 2) 1 = .error .outOfRange := rfl

example : select_device (some (-1)) 5 = .error .outOfRange := rfl

example : select_device none 0 = .error .noDevice := rfl

example : select_device none 3 = .error .multipleDevices := rfl

/- Helper lemmas on traces and the orchestrator. -/

theorem safeTrace_of_seen : ∀ t, safeTrace true t = true := by
  intro t
  induction t with
  | nil => rfl
  | cons e rest ih => cases e <;> simp [safeTrace, ih]

theorem seenAfter_of_seen : ∀ t, seenAfter true t = true := by
  intro t
  induction t with
  | nil => rfl
  | cons e rest ih => simp [seenAfter, ih]

theorem safeTrace_append : ∀ (xs ys : List Event) (seen : Bool),
    safeTrace seen (xs ++ ys) = (safeTrace seen xs && safeTrace (seenAfter seen xs) ys) := by
  intro xs
  induction xs with
  | nil => intro ys seen; simp [safeTrace, seenAfter]
  | cons e rest ih =>
    intro ys seen
    cases e with
    | ctrl f => simp [safeTrace, seenAfter, ih]
    | bulk p => simp [safeTrace, seenAfter, isBrightCtrl, ih, Bool.and_assoc]

/-- Evaluation of mono_color_setup when self.brightness is not yet
truthy: the recursive bootstrap applies brightness level 4 first. -/
theorem mono_color_setup_unset (fm : List Char → List Nat) (st : CCState)
    (scheme : List Char) (h : truthy st.brightness = false) :
    mono_color_setup fm st scheme =
      ⟨⟨some 4⟩,
       Event.ctrl [0x08, 0x02, 0x33, 0x00, 0x32, 0x00, 0x00, 0x00] ::
       Event.ctrl [0x12, 0x00, 0x00, 0x08, 0x01, 0x00, 0x00, 0x00] ::
       List.replicate 8 (Event.bulk (fm scheme)), true⟩ := by
  rw [mono_color_setup]
  simp only [h, Bool.false_eq_true, dite_false, adjust_brightness_none]
  rw [mono_color_setup]
  simp [truthy]

theorem h_alt_color_setup_unset (fh : List Char → List Char → List Nat) (st : CCState)
    (a b : List Char) (h : truthy st.brightness = false) :
    h_alt_color_setup fh st a b =
      ⟨⟨some 4⟩,
       Event.ctrl [0x08, 0x02, 0x33, 0x00, 0x32, 0x00, 0x00, 0x00] ::
       Event.ctrl [0x12, 0x00, 0x00, 0x08, 0x01, 0x00, 0x00, 0x00] ::
       List.replicate 8 (Event.bulk (fh a b)), true⟩ := by
  rw [h_alt_color_setup]
  simp only [h, Bool.false_eq_true, dite_false, adjust_brightness_none]
  rw [h_alt_color_setup]
  simp [truthy]

theorem v_alt_color_setup_unset (fv : List Char → List Char → List Nat) (st : CCState)
    (a b : List Char) (h : truthy st.brightness = false) :
    v_alt_color_setup fv st a b =
      ⟨⟨some 4⟩,
       Event.ctrl [0x08, 0x02, 0x33, 0x00, 0x32, 0x00, 0x00, 0x00] ::
       Event.ctrl [0x12, 0x00, 0x00, 0x08, 0x01, 0x00, 0x00, 0x00] ::
       List.replicate 8 (Event.bulk (fv a b)), true⟩ := by
  rw [v_alt_color_setup]
  simp only [h, Bool.false_eq_true, dite_false, adjust_brightness_none]
  rw [v_alt_color_setup]
  simp [truthy]

/-- adjust_brightness either stores a level and issues the brightness
control frame, or raises KeyError after the store (level truthy but not in
brightness_map), issuing nothing. -/
theorem adjust_brightness_cases (st : CCState) (l : Option Nat) :
    (∃ b code, adjust_brightness st l =
        ⟨⟨some b⟩, [Event.ctrl [0x08, 0x02, 0x33, 0x00, code, 0x00, 0x00, 0x00]], true⟩) ∨
    (∃ b, adjust_brightness st l = ⟨⟨some b⟩, [], false⟩) := by
  cases l with
  | none => exact Or.inl ⟨4, 0x32, adjust_brightness_none st⟩
  | some b =>
    by_cases hb : b = 0
    · subst hb
      left
      refine ⟨4, 0x32, ?_⟩
      rw [adjust_brightness]
      simp [truthy]
      rw [adjust_brightness]
      simp [truthy, brightness_map, List.lookup]
    · rw [adjust_brightness]
      have ht : truthy (some b) = true := by simp [truthy, hb]
      simp only [ht, dite_true]
      cases hlook : brightness_map.lookup b with
      | some code => exact Or.inl ⟨b, code, by simp [hlook]⟩
      | none => exact Or.inr ⟨b, by simp [hlook]⟩

/-- Safety of a single operation: its own transfers never place a bulk
write before a brightness control write, and whenever the operation
completes with a truthy stored brightness, a brightness control write has
been seen. -/
theorem runOp_safe (fm : List Char → List Nat) (fh fv : List Char → List Char → List Nat)
    (st : CCState) (op : Op) (seen : Bool)
    (hs : truthy st.brightness = true → seen = true) :
    safeTrace seen (runOp fm fh fv st op).events = true ∧
    ((runOp fm fh fv st op).ok = true →
      truthy (runOp fm fh fv st op).st.brightness = true →
      seenAfter seen (runOp fm fh fv st op).events = true) := by
  cases op with
  | disable =>
    refine ⟨by simp [runOp, disable_keyboard, safeTrace], ?_⟩
    intro _ ht
    have := hs ht
    subst this
    exact seenAfter_of_seen _
  | style s b sp =>
    cases hres : get_light_style_code s b sp with
    | ok frame =>
      refine ⟨by simp [runOp, keyboard_style, hres, safeTrace], ?_⟩
      intro _ ht
      simp only [runOp, keyboard_style, hres] at ht ⊢
      have := hs ht
      subst this
      exact seenAfter_of_seen _
    | error e =>
      exact ⟨by simp [runOp, keyboard_style, hres, safeTrace], by
        simp [runOp, keyboard_style, hres]⟩
  | setBrightness l =>
    rcases adjust_brightness_cases st l with ⟨b, code, heq⟩ | ⟨b, heq⟩
    · refine ⟨?_, ?_⟩
      · simp [runOp, heq, safeTrace]
      · intro _ _
        simp [runOp, heq, seenAfter, isBrightCtrl, seenAfter_of_seen]
    · refine ⟨by simp [runOp, heq, safeTrace], by simp [runOp, heq]⟩
  | mono scheme =>
    by_cases hb : truthy st.brightness = true
    · have hseen := hs hb
      subst hseen
      rw [runOp, mono_color_setup]
      simp only [hb, dite_true]
      exact ⟨safeTrace_of_seen _, fun _ _ => seenAfter_of_seen _⟩
    · have hb' : truthy st.brightness = false := by simpa using hb
      rw [runOp, mono_color_setup_unset fm st scheme hb']
      refine ⟨?_, fun _ _ => ?_⟩
      · simp [safeTrace, isBrightCtrl, safeTrace_of_seen]
      · simp [seenAfter, isBrightCtrl, seenAfter_of_seen]
  | hAlt a b =>
    by_cases hb : truthy st.brightness = true
    · have hseen := hs hb
      subst hseen
      rw [runOp, h_alt_color_setup]
      simp only [hb, dite_true]
      exact ⟨safeTrace_of_seen _, fun _ _ => seenAfter_of_seen _⟩
    · have hb' : truthy st.brightness = false := by simpa using hb
      rw [runOp, h_alt_color_setup_unset fh st a b hb']
      refine ⟨?_, fun _ _ => ?_⟩
      · simp [safeTrace, isBrightCtrl, safeTrace_of_seen]
      · simp [seenAfter, isBrightCtrl, seenAfter_of_seen]
  | vAlt a b =>
    by_cases hb : truthy st.brightness = true
    · have hseen := hs hb
      subst hseen
      rw [runOp, v_alt_color_setup]
      simp only [hb, dite_true]
      exact ⟨safeTrace_of_seen _, fun _ _ => seenAfter_of_seen _⟩
    · have hb' : truthy st.brightness = false := by simpa using hb
      rw [runOp, v_alt_color_setup_unset fv st a b hb']
      refine ⟨?_, fun _ _ => ?_⟩
      · simp [safeTrace, isBrightCtrl, safeTrace_of_seen]
      · simp [seenAfter, isBrightCtrl, seenAfter_of_seen]

/-- Safety of whole runs: from any state in which a truthy stored
brightness implies a brightness write was already seen, the rest of the
run never issues a bulk write before a brightness control write. -/
theorem run_safe (fm : List Char → List Nat) (fh fv : List Char → List Char → List Nat) :
    ∀ (ops : List Op) (st : CCState) (seen : Bool),
      (truthy st.brightness = true → seen = true) →
      safeTrace seen (run fm fh fv st ops).2 = true := by
  intro ops
  induction ops with
  | nil => intro st seen hs; simp [run, safeTrace]
  | cons op ops ih =>
    intro st seen hs
    rw [run]
    obtain ⟨h1, h2⟩ := runOp_safe fm fh fv st op seen hs
    by_cases hok : (runOp fm fh fv st op).ok = true
    · simp only [hok, if_true]
      rw [safeTrace_append]
      have hrest := ih (runOp fm fh fv st op).st (seenAfter seen (runOp fm fh fv st op).events)
        (h2 hok)
      simp [h1, hrest]
    · simp only [hok, if_false, Bool.false_eq_true]
      exact h1

/-- C1: a colour-table operation (mono, horizontal-alternating,
vertical-alternating) invoked when last_brightness is unset issues exactly
one brightness-set control transfer for level 4 (frame
[0x08,0x02,0x33,0x00,0x32,0,0,0]), then the persist control frame, then 8
bulk writes of the zone colour vector; and in every run from the initial
state, no bulk write is ever issued without a preceding brightness control
write. -/
theorem color_table_bootstrap :
    (∀ (fm : List Char → List Nat) (st : CCState) (scheme : List Char),
        st.brightness = none →
        mono_color_setup fm st scheme =
          ⟨⟨some 4⟩,
           Event.ctrl [0x08, 0x02, 0x33, 0x00, 0x32, 0x00, 0x00, 0x00] ::
           Event.ctrl [0x12, 0x00, 0x00, 0x08, 0x01, 0x00, 0x00, 0x00] ::
           List.replicate 8 (Event.bulk (fm scheme)), true⟩) ∧
    (∀ (fh : List Char → List Char → List Nat) (st : CCState) (a b : List Char),
        st.brightness = none →
        h_alt_color_setup fh st a b =
          ⟨⟨some 4⟩,
           Event.ctrl [0x08, 0x02, 0x33, 0x00, 0x32, 0x00, 0x00, 0x00] ::
           Event.ctrl [0x12, 0x00, 0x00, 0x08, 0x01, 0x00, 0x00, 0x00] ::
           List.replicate 8 (Event.bulk (fh a b)), true⟩) ∧
    (∀ (fv : List Char → List Char → List Nat) (st : CCState) (a b : List Char),
        st.brightness = none →
        v_alt_color_setup fv st a b =
          ⟨⟨some 4⟩,
           Event.ctrl [0x08, 0x02, 0x33, 0x00, 0x32, 0x00, 0x00, 0x00] ::
           Event.ctrl [0x12, 0x00, 0x00, 0x08, 0x01, 0x00, 0x00, 0x00] ::
           List.replicate 8 (Event.bulk (fv a b)), true⟩) ∧
    (∀ (fm : List Char → List Nat) (fh fv : List Char → List Char → List Nat) (ops : List Op),
        safeTrace false (run fm fh fv ⟨none⟩ ops).2 = true) := by
  refine ⟨?_, ?_, ?_, ?_⟩
  · intro fm st scheme h
    exact mono_color_setup_unset fm st scheme (by simp [h, truthy])
  · intro fh st a b h
    exact h_alt_color_setup_unset fh st a b (by simp [h, truthy])
  · intro fv st a b h
    exact v_alt_color_setup_unset fv st a b (by simp [h, truthy])
  · intro fm fh fv ops
    exact run_safe fm fh fv ops ⟨none⟩ false (by simp [truthy])

/-- Witness for C1 at concrete inputs. -/
theorem color_table_bootstrap_witness :
    mono_color_setup (fun _ => [0x20]) ⟨none⟩ ['r','e','d'] =
      ⟨⟨some 4⟩,
       Event.ctrl [0x08, 0x02, 0x33, 0x00, 0x32, 0x00, 0x00, 0x00] ::
       Event.ctrl [0x12, 0x00, 0x00, 0x08, 0x01, 0x00, 0x00, 0x00] ::
       List.replicate 8 (Event.bulk [0x20]), true⟩ ∧
    safeTrace false
      (run (fun _ => [0x20]) (fun _ _ => [0x21]) (fun _ _ => [0x22]) ⟨none⟩
        [Op.mono ['r','e','d'], Op.disable]).2 = true :=
  ⟨color_table_bootstrap.1 (fun _ => [0x20]) ⟨none⟩ ['r','e','d'] rfl,
   color_table_bootstrap.2.2.2 (fun _ => [0x20]) (fun _ _ => [0x21]) (fun _ _ => [0x22])
     [Op.mono ['r','e','d'], Op.disable]⟩

/-- C8: the disable operation issues exactly one control write of the
power-off frame and leaves the stored brightness unchanged. -/
theorem disable_poweroff_frame :
    ∀ st : CCState,
      disable_keyboard st =
        ⟨st, [Event.ctrl [0x08, 0x01, 0x00, 0x00, 0x00, 0x00, 0x00, 0x00]], true⟩ ∧
      (disable_keyboard st).st.brightness = st.brightness :=
  fun st => ⟨rfl, rfl⟩

/-- C9: adjust_brightness with level 0 behaves exactly like
adjust_brightness with no level: it succeeds, stores 4, and emits the
maximum-brightness control frame. -/
theorem brightness_zero_as_default :
    ∀ st : CCState,
      adjust_brightness st (some 0) = adjust_brightness st none ∧
      adjust_brightness st (some 0) =
        ⟨⟨some 4⟩, [Event.ctrl [0x08, 0x02, 0x33, 0x00, 0x32, 0x00, 0x00, 0x00]], true⟩ := by
  intro st
  have h0 : adjust_brightness st (some 0) = adjust_brightness st (some 4) := by
    conv_lhs => rw [adjust_brightness]
    simp [truthy]
  have h4 : adjust_brightness st (some 4) =
      ⟨⟨some 4⟩, [Event.ctrl [0x08, 0x02, 0x33, 0x00, 0x32, 0x00, 0x00, 0x00]], true⟩ := by
    rw [adjust_brightness]
    simp [truthy, brightness_map, List.lookup]
  exact ⟨by rw [h0, adjust_brightness_none, h4], by rw [h0, h4]⟩

/- Helper lemmas on the style-pattern matcher. -/

/-- If no program alternative is a prefix of the token, the pattern match
fails. -/
theorem matchFirst_none (ps : List (List Char)) (s : List Char)
    (h : ∀ q ∈ ps, s.take q.length ≠ q) : matchFirst ps s = none := by
  induction ps with
  | nil => rfl
  | cons q qs ih =>
    rw [matchFirst, if_neg (h q (List.mem_cons_self q qs))]
    exact ih (fun r hr => h r (List.mem_cons_of_mem q hr))

/-- Shape of a successful pattern match: the matched program is one of the
alternatives, and the token is the program either alone or followed by one
accepted colour letter. -/
theorem matchFirst_shape : ∀ (ps : List (List Char)) (s p : List Char) (copt : Option Char),
    matchFirst ps s = some (p, copt) →
    p ∈ ps ∧ ((copt = none ∧ s = p) ∨
      ∃ c, copt = some c ∧ s = p ++ [c] ∧ (colours.lookup c).isSome = true) := by
  intro ps
  induction ps with
  | nil => intro s p copt h; simp [matchFirst] at h
  | cons q qs ih =>
    intro s p copt h
    rw [matchFirst] at h
    by_cases htake : s.take q.length = q
    · rw [if_pos htake] at h
      have hsplit : s = q ++ s.drop q.length := by
        conv_lhs => rw [← List.take_append_drop q.length s]
        rw [htake]
      split at h
      · next heq =>
          simp only [Option.some.injEq, Prod.mk.injEq] at h
          obtain ⟨hqp, hcopt⟩ := h
          subst hqp
          subst hcopt
          refine ⟨List.mem_cons_self _ _, Or.inl ⟨rfl, ?_⟩⟩
          rw [hsplit, heq, List.append_nil]
      · next c heq =>
          split at h
          · next hlook =>
              simp only [Option.some.injEq, Prod.mk.injEq] at h
              obtain ⟨hqp, hcopt⟩ := h
              subst hqp
              subst hcopt
              refine ⟨List.mem_cons_self _ _, Or.inr ⟨c, rfl, ?_, hlook⟩⟩
              rw [hsplit, heq]
          · next hlook =>
              obtain ⟨hmem, hrest⟩ := ih s p copt h
              exact ⟨List.mem_cons_of_mem q hmem, hrest⟩
      · next heq1 heq2 =>
          obtain ⟨hmem, hrest⟩ := ih s p copt h
          exact ⟨List.mem_cons_of_mem q hmem, hrest⟩
    · rw [if_neg htake] at h
      obtain ⟨hmem, hrest⟩ := ih s p copt h
      exact ⟨List.mem_cons_of_mem q hmem, hrest⟩

/-- A key that occurs in an association list has a lookup result. -/
theorem lookup_isSome_of_mem_keys : ∀ (l : List (List Char × Nat)) (p : List Char),
    p ∈ l.map Prod.fst → (l.lookup p).isSome = true := by
  intro l
  induction l with
  | nil => intro p hp; simp at hp
  | cons kv t ih =>
    intro p hp
    obtain ⟨k, v⟩ := kv
    by_cases hb : p = k
    · subst hb
      simp [List.lookup]
    · have hb' : (p == k) = false := by simp [hb]
      simp only [List.lookup, hb']
      apply ih
      simp only [List.map_cons, List.mem_cons] at hp
      rcases hp with h1 | h1
      · exact absurd h1 hb
      · exact h1

/-- No program name is another program name extended by one character
(checked over all pairs via take/length, so it holds for every extension
character). -/
theorem keys_take_aux : ∀ p ∈ programKeys, ∀ q ∈ programKeys,
    ¬(q.take p.length = p ∧ q.length = p.length + 1) := by decide

theorem keys_no_single_ext : ∀ p ∈ programKeys, ∀ c : Char, ∀ q ∈ programKeys,
    q ≠ p ++ [c] := by
  intro p hp c q hq heq
  apply keys_take_aux p hp q hq
  subst heq
  exact ⟨List.take_left p [c], by simp⟩

/-- C3: a style token of which no program name is a prefix is rejected
with the unknown-style failure and no frame, and so is a token consisting
of a program name followed by one character that is not an accepted colour
letter (trailing garbage is rejected, never truncated). -/
theorem unknown_style_rejected :
    (∀ (style : List Char) (b sp : Nat),
        (∀ q ∈ programKeys, style.take q.length ≠ q) →
        get_light_style_code style b sp = .error (.unknownStyle style)) ∧
    (∀ p ∈ programKeys, ∀ c : Char, colours.lookup c = none → ∀ b sp : Nat,
        get_light_style_code (p ++ [c]) b sp = .error (.unknownStyle (p ++ [c]))) := by
  constructor
  · intro style b sp h
    have hm : matchStyle style = none := matchFirst_none programKeys style h
    simp [get_light_style_code, hm]
  · intro p hp c hc b sp
    have hm : matchStyle (p ++ [c]) = none := by
      cases hcase : matchStyle (p ++ [c]) with
      | none => rfl
      | some r =>
        exfalso
        obtain ⟨q, copt⟩ := r
        obtain ⟨hqmem, hshape⟩ := matchFirst_shape programKeys (p ++ [c]) q copt hcase
        rcases hshape with ⟨_, hs⟩ | ⟨c', _, hs, hlook⟩
        · exact keys_no_single_ext p hp c q hqmem hs.symm
        · have hlen : p.length = q.length := by
            have := congrArg List.length hs
            simp at this
            omega
          obtain ⟨hpq, hcc⟩ := List.append_inj hs hlen
          have hcc' : c = c' := by simpa using hcc
          rw [← hcc', hc] at hlook
          simp at hlook
    simp [get_light_style_code, hm]

/-- Witness for C3: the token "unknownname" and the token "ripplez" (valid
program name, invalid trailing letter) are both rejected. -/
theorem unknown_style_rejected_witness :
    get_light_style_code ['u','n','k','n','o','w','n','n','a','m','e'] 3 5 =
      .error (.unknownStyle ['u','n','k','n','o','w','n','n','a','m','e']) ∧
    get_light_style_code (['r','i','p','p','l','e'] ++ ['z']) 3 5 =
      .error (.unknownStyle (['r','i','p','p','l','e'] ++ ['z'])) :=
  ⟨unknown_style_rejected.1 ['u','n','k','n','o','w','n','n','a','m','e'] 3 5 (by decide),
   unknown_style_rejected.2 ['r','i','p','p','l','e'] (by decide) 'z' (by decide) 3 5⟩

/-- C2: the token "rippler" (ripple effect, red colour letter) with
brightness 3 and speed 5 resolves exactly to the frame
(0x08,0x02,0x06,0x05,0x24,0x01,0x00,0x00). -/
theorem rippler_frame :
    get_light_style_code ['r','i','p','p','l','e','r'] 3 5 =
      .ok [0x08, 0x02, 0x06, 0x05, 0x24, 0x01, 0x00, 0x00] := rfl

/-- C10: the token "reactiveripple" resolves to the reactive-ripple
effect's own frame (program code 0x07, secondary-effect byte 0x00, default
rainbow colour 0x08), and the pattern match yields the full effect name
with no colour letter, not the prefix "reactive" with leftover text. -/
theorem reactiveripple_longest_match :
    get_light_style_code ['r','e','a','c','t','i','v','e','r','i','p','p','l','e'] 3 5 =
      .ok [0x08, 0x02, 0x07, 0x05, 0x24, 0x08, 0x00, 0x00] ∧
    matchStyle ['r','e','a','c','t','i','v','e','r','i','p','p','l','e'] =
      some (['r','e','a','c','t','i','v','e','r','i','p','p','l','e'], none) :=
  ⟨rfl, rfl⟩

/-- Speed and brightness bytes of every successfully built style frame:
byte 3 is the speed argument verbatim, byte 4 the brightness_map image of
the brightness ordinal. -/
theorem get_ok_bytes (style : List Char) (b sp : Nat) (frame : List Nat)
    (h : get_light_style_code style b sp = .ok frame) :
    frame.get? 3 = some sp ∧ frame.get? 4 = brightness_map.lookup b := by
  cases hms : matchStyle style with
  | none => simp [get_light_style_code, hms] at h
  | some r =>
    obtain ⟨p, letter⟩ := r
    cases hpc : programs.lookup p with
    | none => simp [get_light_style_code, hms, hpc] at h
    | some pc =>
      cases letter with
      | none =>
        cases hbc : brightness_map.lookup b with
        | none => simp [get_light_style_code, hms, hpc, hbc] at h
        | some bc =>
          simp only [get_light_style_code, hms, hpc, hbc, Except.ok.injEq] at h
          subst h
          exact ⟨rfl, rfl⟩
      | some c =>
        cases hcc : colours.lookup c with
        | none => simp [get_light_style_code, hms, hpc, hcc] at h
        | some cb =>
          cases hbc : brightness_map.lookup b with
          | none => simp [get_light_style_code, hms, hpc, hcc, hbc] at h
          | some bc =>
            simp only [get_light_style_code, hms, hpc, hcc, hbc, Except.ok.injEq] at h
            subst h
            exact ⟨rfl, rfl⟩

/-- C4: every style token whose matched effect is "wave" — with or
without an appended colour letter — resolves to a frame whose colour byte
(position 5) is 0x00 and whose secondary-effect byte (position 6) is
0x01. -/
theorem wave_forced_bytes :
    ∀ (style : List Char) (copt : Option Char) (b sp : Nat) (frame : List Nat),
      matchStyle style = some (['w','a','v','e'], copt) →
      get_light_style_code style b sp = .ok frame →
      frame.get? 5 = some 0x00 ∧ frame.get? 6 = some 0x01 := by
  intro style copt b sp frame hm h
  have hpl : programs.lookup ['w','a','v','e'] = some 0x03 := rfl
  cases copt with
  | none =>
    cases hbc : brightness_map.lookup b with
    | none => simp [get_light_style_code, hm, hpl, hbc] at h
    | some bc =>
      simp only [get_light_style_code, hm, hpl, hbc, Except.ok.injEq] at h
      rw [if_neg (by decide), if_neg (by decide), if_pos trivial] at h
      subst h
      exact ⟨rfl, rfl⟩
  | some c =>
    have hshape := matchFirst_shape programKeys style ['w','a','v','e'] (some c) hm
    rcases hshape.2 with ⟨hcn, _⟩ | ⟨c', hcs, _, hlook⟩
    · exact absurd hcn (by simp)
    · have hc' : c' = c := by
        injection hcs.symm
      subst hc'
      obtain ⟨cb, hcc⟩ := Option.isSome_iff_exists.mp hlook
      cases hbc : brightness_map.lookup b with
      | none => simp [get_light_style_code, hm, hpl, hcc, hbc] at h
      | some bc =>
        simp only [get_light_style_code, hm, hpl, hcc, hbc, Except.ok.injEq] at h
        rw [if_neg (by decide), if_neg (by decide), if_pos trivial] at h
        subst h
        exact ⟨rfl, rfl⟩

/-- Witness for C4 at the token "waver" (wave with appended red letter). -/
theorem wave_forced_bytes_witness :
    matchStyle ['w','a','v','e','r'] = some (['w','a','v','e'], some 'r') ∧
    get_light_style_code ['w','a','v','e','r'] 3 5 =
      .ok [0x08, 0x02, 0x03, 0x05, 0x24, 0x00, 0x01, 0x00] ∧
    ([0x08, 0x02, 0x03, 0x05, 0x24, 0x00, 0x01, 0x00] : List Nat).get? 5 = some 0x00 ∧
    ([0x08, 0x02, 0x03, 0x05, 0x24, 0x00, 0x01, 0x00] : List Nat).get? 6 = some 0x01 :=
  ⟨rfl, rfl,
   wave_forced_bytes ['w','a','v','e','r'] (some 'r') 3 5
     [0x08, 0x02, 0x03, 0x05, 0x24, 0x00, 0x01, 0x00] rfl rfl⟩

/-- C5: a brightness ordinal that brightness_map does not contain (every
ordinal outside 1..4, in particular 0 and 5) makes get_light_style_code
fail with InvalidBrightness for any parseable style, before any frame is
built; the table maps 1,2,3,4 bijectively to 0x08,0x16,0x24,0x32, and
byte 4 of every successfully built frame is the table image of the
ordinal. -/
theorem brightness_range :
    (∀ (style : List Char) (b sp : Nat),
        (matchStyle style).isSome = true → brightness_map.lookup b = none →
        get_light_style_code style b sp = .error (.invalidBrightness b)) ∧
    (∀ b : Nat, b ∉ ([1, 2, 3, 4] : List Nat) → brightness_map.lookup b = none) ∧
    (brightness_map.map Prod.fst = [1, 2, 3, 4] ∧
      brightness_map.map Prod.snd = [0x08, 0x16, 0x24, 0x32] ∧
      (brightness_map.map Prod.snd).Nodup) ∧
    (∀ (style : List Char) (b sp : Nat) (frame : List Nat),
        get_light_style_code style b sp = .ok frame →
        frame.get? 4 = brightness_map.lookup b) := by
  refine ⟨?_, ?_, by decide, ?_⟩
  · intro style b sp hm hb
    obtain ⟨⟨p, copt⟩, hms⟩ := Option.isSome_iff_exists.mp hm
    obtain ⟨hpmem, hshape⟩ := matchFirst_shape programKeys style p copt hms
    obtain ⟨pc, hpc⟩ := Option.isSome_iff_exists.mp (lookup_isSome_of_mem_keys programs p hpmem)
    rcases hshape with ⟨hcn, _⟩ | ⟨c, hcs, _, hlook⟩
    · subst hcn
      simp [get_light_style_code, hms, hpc, hb]
    · subst hcs
      obtain ⟨cb, hcc⟩ := Option.isSome_iff_exists.mp hlook
      simp [get_light_style_code, hms, hpc, hcc, hb]
  · intro b hb
    simp only [List.mem_cons, List.not_mem_nil, or_false, not_or] at hb
    obtain ⟨h1, h2, h3, h4⟩ := hb
    have e1 : (b == 1) = false := beq_eq_false_iff_ne.mpr h1
    have e2 : (b == 2) = false := beq_eq_false_iff_ne.mpr h2
    have e3 : (b == 3) = false := beq_eq_false_iff_ne.mpr h3
    have e4 : (b == 4) = false := beq_eq_false_iff_ne.mpr h4
    simp [brightness_map, List.lookup, e1, e2, e3, e4]
  · intro style b sp frame h
    exact (get_ok_bytes style b sp frame h).2

/-- Witness for C5 at ordinals 5 and 0 with the style "ripple". -/
theorem brightness_range_witness :
    (matchStyle ['r','i','p','p','l','e']).isSome = true ∧
    brightness_map.lookup 5 = none ∧
    get_light_style_code ['r','i','p','p','l','e'] 5 5 = .error (.invalidBrightness 5) ∧
    brightness_map.lookup 0 = none :=
  ⟨rfl, rfl, brightness_range.1 ['r','i','p','p','l','e'] 5 5 rfl rfl,
   brightness_range.2.1 0 (by decide)⟩

/-- Counterexample to C6: get_light_style_code called with the
out-of-range speed ordinal 0 does not fail with any InvalidSpeed error —
it builds and returns a frame carrying speed byte 0. -/
theorem speed_unchecked_cex :
    get_light_style_code ['r','i','p','p','l','e'] 3 0 =
      .ok [0x08, 0x02, 0x06, 0x00, 0x24, 0x08, 0x00, 0x00] := rfl

/-- C6 amended: get_light_style_code itself performs no speed validation
and stores whatever speed it is given verbatim as byte 3 of the frame;
out-of-range speed ordinals are instead rejected by the CLI argument
parser, whose --speed choices are exactly 1..10. -/
theorem speed_cli_validation :
    (∀ sp : Int, sp ∉ speedChoices → parse_speed_arg sp = none) ∧
    (∀ (style : List Char) (b sp : Nat) (frame : List Nat),
        get_light_style_code style b sp = .ok frame → frame.get? 3 = some sp) := by
  constructor
  · intro sp h
    simp [parse_speed_arg, h]
  · intro style b sp frame h
    exact (get_ok_bytes style b sp frame h).1

/-- Witness for the amended C6: speed 11 is refused by the CLI parser,
and an in-range speed 7 lands verbatim in byte 3. -/
theorem speed_cli_validation_witness :
    parse_speed_arg 11 = none ∧
    ([0x08, 0x02, 0x06, 0x07, 0x24, 0x08, 0x00, 0x00] : List Nat).get? 3 = some 7 :=
  ⟨speed_cli_validation.1 11 (by decide),
   speed_cli_validation.2 ['r','i','p','p','l','e'] 3 7
     [0x08, 0x02, 0x06, 0x07, 0x24, 0x08, 0x00, 0x00] rfl⟩

/-- Counterexample to C7: the supplied device index 0 is out of the
1-based range, yet with one device found main() selects that device
(index 0 of the list) instead of reporting a usage error, because
"if parsed.device:" treats 0 as absent. -/
theorem device_index_zero_cex : select_device (some 0) 1 = .ok 0 := rfl

/-- C7 amended: a supplied non-zero device index outside the 1-based
range [1, number of devices] is a usage error; with no index (or the falsy
index 0, which is treated exactly like an absent index), zero devices
found or more than one device found is a usage error. -/
theorem device_selection_usage_errors :
    (∀ (d : Int) (n : Nat), d ≠ 0 → (d < 1 ∨ (n : Int) < d) →
        select_device (some d) n = .error .outOfRange) ∧
    (select_device none 0 = .error .noDevice) ∧
    (∀ n : Nat, 2 ≤ n → select_device none n = .error .multipleDevices) ∧
    (∀ n : Nat, select_device (some 0) n = select_device none n) := by
  refine ⟨?_, rfl, ?_, ?_⟩
  · intro d n hd hrange
    have ht : (d != 0) = true := by simp [hd]
    simp only [select_device, ht, if_true, Option.getD_some]
    rcases hrange with h1 | h1
    · rw [if_pos (Or.inl h1)]
    · rw [if_pos (Or.inr (by omega))]
  · intro n hn
    have h0 : ¬(n = 0) := by omega
    have h1 : 1 < n := by omega
    simp [select_device, h0, h1]
  · intro n
    rfl

/-- Witness for the amended C7 at concrete inputs. -/
theorem device_selection_usage_errors_witness :
    select_device (some 7) 3 = .error .outOfRange ∧
    select_device (some (-2)) 3 = .error .outOfRange ∧
    select_device none 2 = .error .multipleDevices ∧
    select_device (some 0) 5 = select_device none 5 :=
  ⟨device_selection_usage_errors.1 7 3 (by decide) (Or.inr (by decide)),
   device_selection_usage_errors.1 (-2) 3 (by decide) (Or.inl (by decide)),
   device_selection_usage_errors.2.2.1 2 (by decide),
   device_selection_usage_errors.2.2.2 5⟩
